import Mathlib

/-!
Verification of the AIA Academic Illustrator core pipeline and state store.

The development shallowly embeds the two core modules of the repository:
the model gateway (prompt templates, multimodal content assembly, and the
image-extraction cascade of `generateSchema` / `renderImage`) and the
workflow state store (`addToHistory`, `loadFromHistory`, `deleteFromHistory`,
`clearHistory`, `resetProject`, and the persisted subset).

JavaScript string primitives used by the source (`String.prototype.replace`
with a string pattern, `trim`, the regular expression
`data:image\/[^;]+;base64,[A-Za-z0-9+/=]+`, and the test
`^[A-Za-z0-9+/=\s]+$`) are modelled executably over `List Char`.
-/

namespace AIA

/-! ## JavaScript string primitives -/

/-- The backtick character, written by code point to keep source plain. -/
def backtickChar : Char := Char.ofNat 96

/-- The single-quote character, written by code point. -/
def singleQuoteChar : Char := Char.ofNat 39

/-- `dropPre p l` strips the literal pattern `p` from the front of `l`,
returning the remainder, or `none` when `p` is not a literal prefix. -/
def dropPre : List Char → List Char → Option (List Char)
  | [], l => some l
  | _ :: _, [] => none
  | p :: ps, c :: cs => if c = p then dropPre ps cs else none

/-- ECMAScript `GetSubstitution` for a string pattern (no capture groups):
in the replacement text, a dollar sign followed by a dollar sign yields a
single dollar sign, followed by an ampersand yields the matched text,
followed by a backtick yields the text before the match, and followed by a
single quote yields the text after the match; any other dollar sign is
literal. -/
def getSubst : List Char → List Char → List Char → List Char → List Char
  | [], _, _, _ => []
  | c :: rest, matched, before, after =>
    if c = '$' then
      match rest with
      | [] => [c]
      | d :: rest2 =>
        if d = '$' then '$' :: getSubst rest2 matched before after
        else if d = '&' then matched ++ getSubst rest2 matched before after
        else if d = backtickChar then before ++ getSubst rest2 matched before after
        else if d = singleQuoteChar then after ++ getSubst rest2 matched before after
        else c :: d :: getSubst rest2 matched before after
    else c :: getSubst rest matched before after

/-- Split a character list at the first occurrence of the literal pattern
`pat`: `splitAtSub? pat l = some (pre, post)` with `l = pre ++ pat ++ post`
and `pre` minimal, or `none` when `pat` does not occur. -/
def splitAtSub? (pat : List Char) : List Char → Option (List Char × List Char)
  | [] =>
    match dropPre pat [] with
    | some r => some ([], r)
    | none => none
  | c :: cs =>
    match dropPre pat (c :: cs) with
    | some r => some ([], r)
    | none =>
      match splitAtSub? pat cs with
      | some (a, b) => some (c :: a, b)
      | none => none

/-- JavaScript `s.replace(search, repl)` with a string `search`: the first
occurrence of `search` is replaced by the `GetSubstitution` expansion of
`repl`; when `search` does not occur the string is returned unchanged. -/
def jsReplace (s search repl : String) : String :=
  match splitAtSub? search.toList s.toList with
  | none => s
  | some (pre, post) =>
    String.mk (pre ++ getSubst repl.toList search.toList pre post ++ post)

/-- Modelled from the spec: substitution as the specification describes it,
replacing only the first occurrence of the placeholder by the value itself,
byte for byte, with no interpretation of the value. Compared against
`jsReplace`, which embeds the source behaviour. -/
def specSplice (s search repl : String) : String :=
  match splitAtSub? search.toList s.toList with
  | none => s
  | some (pre, post) => String.mk (pre ++ repl.toList ++ post)

/-- JavaScript whitespace class: the characters matched by the regular
expression class `\s` (also the set trimmed by `String.prototype.trim`). -/
def isJsWs (c : Char) : Bool :=
  c.toNat = 9 || c.toNat = 10 || c.toNat = 11 || c.toNat = 12 ||
  c.toNat = 13 || c.toNat = 32 || c.toNat = 0xA0 || c.toNat = 0x1680 ||
  (0x2000 ≤ c.toNat && c.toNat ≤ 0x200A) || c.toNat = 0x2028 ||
  c.toNat = 0x2029 || c.toNat = 0x202F || c.toNat = 0x205F ||
  c.toNat = 0x3000 || c.toNat = 0xFEFF

/-- JavaScript `String.prototype.trim`: drop whitespace from both ends. -/
def jsTrim (s : String) : String :=
  String.mk (((s.toList.dropWhile isJsWs).reverse.dropWhile isJsWs).reverse)

/-- One character of the base64 alphabet used by the source regular
expressions: `[A-Za-z0-9+/=]`. -/
def isBase64Char (c : Char) : Bool :=
  c.isAlpha || c.isDigit || c = '+' || c = '/' || c = '='

/-! ## Prompt templates (verbatim from the source) -/

def ARCHITECT_PROMPT_TEMPLATE : String := "You are an expert academic diagram architect. Analyze the following paper content and generate a detailed Visual Schema that describes a publication-quality academic diagram.

The Visual Schema should include:
1. Layout structure (zones, panels, sections)
2. Visual elements (shapes, icons, connections)
3. Color scheme
4. Text labels and annotations
5. Flow/direction indicators

Paper Content:
{paper_content}

Generate a comprehensive Visual Schema in the following format:

---BEGIN PROMPT---
[DIAGRAM TITLE]
A clear, descriptive title for the diagram

[OVERALL LAYOUT]
Describe the overall structure and organization

[ZONES/SECTIONS]
Detail each zone or section with:
- Position and size
- Background color/style
- Content description

[VISUAL ELEMENTS]
List all visual elements with:
- Type (box, arrow, icon, etc.)
- Position
- Style (color, border, shadow)
- Content/label

[CONNECTIONS]
Describe connections between elements:
- From/To
- Arrow style
- Labels

[COLOR PALETTE]
List the main colors used

[KEY TEXT LABELS]
Important text annotations
---END PROMPT---"

def RENDERER_PROMPT_TEMPLATE : String := "You are an expert academic diagram renderer. Based on the following Visual Schema, generate a high-quality academic diagram suitable for CVPR/NeurIPS publications.

{visual_schema_content}

Create a clean, professional academic diagram with:
- Clear visual hierarchy
- Professional color scheme
- Crisp lines and shapes
- Readable text labels
- Publication-quality aesthetics"

def RENDERER_WITH_REFERENCES_TEMPLATE : String := "You are an expert academic diagram renderer. Based on the following Visual Schema and reference images, generate a high-quality academic diagram that matches the style of the references.

{visual_schema_content}

The reference images show the desired aesthetic style. Generate a diagram that:
- Follows the layout and structure from the Visual Schema
- Matches the visual style of the reference images
- Has publication-quality aesthetics suitable for CVPR/NeurIPS"

/-! ## Multimodal content assembly -/

/-- One content part of a chat message: an image part carrying a url, or a
text part. -/
inductive ContentPart where
  | imagePart (url : String)
  | textPart (t : String)
deriving DecidableEq, Repr

/-- Content assembly shared by `generateSchema` (source lines 103 to 121)
and `renderImage` (source lines 157 to 173): with a non-empty image list,
one image part per image in input order followed by a single text part
holding the prompt; otherwise a single text part. -/
def buildContent (prompt : String) (images : Option (List String)) : List ContentPart :=
  match images with
  | some imgs =>
    if imgs.length > 0 then
      imgs.map ContentPart.imagePart ++ [ContentPart.textPart prompt]
    else
      [ContentPart.textPart prompt]
  | none => [ContentPart.textPart prompt]

/-- The prompt built by `generateSchema`: the architect template with the
paper content substituted for the placeholder. -/
def generateSchemaPrompt (paperContent : String) : String :=
  jsReplace ARCHITECT_PROMPT_TEMPLATE "{paper_content}" paperContent

/-- The message content assembled by `generateSchema`. -/
def generateSchemaContent (paperContent : String) (inputImages : Option (List String)) :
    List ContentPart :=
  buildContent (generateSchemaPrompt paperContent) inputImages

/-- The prompt built by `renderImage`: the references-variant template when
at least one reference image is supplied, the plain renderer template
otherwise. -/
def renderImagePrompt (visualSchema : String) (referenceImages : Option (List String)) : String :=
  match referenceImages with
  | some imgs =>
    if imgs.length > 0 then
      jsReplace RENDERER_WITH_REFERENCES_TEMPLATE "{visual_schema_content}" visualSchema
    else
      jsReplace RENDERER_PROMPT_TEMPLATE "{visual_schema_content}" visualSchema
  | none => jsReplace RENDERER_PROMPT_TEMPLATE "{visual_schema_content}" visualSchema

/-- The message content assembled by `renderImage`. -/
def renderImageContent (visualSchema : String) (referenceImages : Option (List String)) :
    List ContentPart :=
  buildContent (renderImagePrompt visualSchema referenceImages) referenceImages

/-! ## Image extraction cascade of `renderImage` -/

/-- The result record of `renderImage`: `imageUrl` is nullable, `text` is
optional. -/
structure RenderImageResponse where
  imageUrl : Option String
  text : Option String
deriving DecidableEq, Repr

/-- Attempt to match the regular expression
`data:image\/[^;]+;base64,[A-Za-z0-9+/=]+` at the head of the list.
The greedy class `[^;]+` cannot cross a semicolon, so its only viable
extent is the run of non-semicolon characters up to the first semicolon;
the trailing payload class is greedy and final. -/
def matchDataUrlAt (cs : List Char) : Option (List Char) :=
  match dropPre ("data:image/".toList) cs with
  | none => none
  | some r1 =>
    let mt := r1.takeWhile (fun c => c != ';')
    let r2 := r1.dropWhile (fun c => c != ';')
    if mt.isEmpty then none
    else
      match dropPre (";base64,".toList) r2 with
      | none => none
      | some r3 =>
        let payload := r3.takeWhile isBase64Char
        if payload.isEmpty then none
        else some ("data:image/".toList ++ mt ++ ";base64,".toList ++ payload)

/-- Leftmost match of the data-url regular expression: try every start
position from the left, first success wins (JavaScript `String.match`
semantics for a non-global pattern). -/
def findDataUrlAux : List Char → Option (List Char)
  | [] => none
  | c :: cs =>
    match matchDataUrlAt (c :: cs) with
    | some m => some m
    | none => findDataUrlAux cs

/-- First match of `data:image\/[^;]+;base64,[A-Za-z0-9+/=]+` in `s`. -/
def findDataUrl (s : String) : Option String :=
  (findDataUrlAux s.toList).map fun l => String.mk l

/-- The test `/^[A-Za-z0-9+/=\s]+$/.test s`: `s` is non-empty and every
character is in the base64 alphabet or whitespace. -/
def rawBase64Test (s : String) : Bool :=
  !s.toList.isEmpty && s.toList.all (fun c => isBase64Char c || isJsWs c)

/-- Post-processing of `renderImage` on the extracted response text
(source lines 182 to 201). The source guards the cascade with a truthiness
check on the text, so the empty string falls directly to the final branch;
the guard is written here as its contrapositive. -/
def extractImage (resultContent : String) : RenderImageResponse :=
  if resultContent = "" then
    { imageUrl := none, text := some resultContent }
  else
    match findDataUrl resultContent with
    | some m => { imageUrl := some m, text := none }
    | none =>
      if 1000 < resultContent.length ∧ rawBase64Test resultContent = true then
        { imageUrl := some ("data:image/png;base64," ++ jsTrim resultContent), text := none }
      else
        { imageUrl := none, text := some resultContent }

/-! ## Workflow state store -/

/-- Model endpoint configuration. -/
structure ModelConfig where
  baseUrl : String
  apiKey : String
  modelName : String
deriving DecidableEq, Repr

/-- One history entry. -/
structure HistoryItem where
  id : String
  timestamp : Nat
  schema : String
  imageUrl : Option String
  thumbnail : Option String
deriving DecidableEq, Repr

/-- Interface language. -/
inductive Language where
  | en
  | zh
deriving DecidableEq, Repr

/-- The workflow store state. -/
structure WorkflowState where
  logicConfig : ModelConfig
  visionConfig : ModelConfig
  language : Language
  currentStep : Nat
  paperContent : String
  generatedSchema : String
  generatedImage : Option String
  referenceImages : List String
  history : List HistoryItem
  storageWarning : Bool
  hasHydrated : Bool
deriving DecidableEq, Repr

def defaultLogicConfig : ModelConfig :=
  { baseUrl := "https://api.deepseek.com", apiKey := "", modelName := "deepseek-chat" }

def defaultVisionConfig : ModelConfig :=
  { baseUrl := "https://generativelanguage.googleapis.com/v1beta", apiKey := ""
    modelName := "gemini-3-pro-image-preview" }

/-- The initial store state. -/
def initialState : WorkflowState :=
  { logicConfig := defaultLogicConfig
    visionConfig := defaultVisionConfig
    language := Language.zh
    currentStep := 1
    paperContent := ""
    generatedSchema := ""
    generatedImage := none
    referenceImages := []
    history := []
    storageWarning := false
    hasHydrated := false }

/-- Maximum number of history items kept. -/
def MAX_HISTORY_ITEMS : Nat := 5

/-- `createThumbnail`: a falsy (absent or empty) image url yields no
thumbnail; otherwise the first 100 characters of the url followed by an
ellipsis marker. -/
def createThumbnail (imageUrl : Option String) : Option String :=
  match imageUrl with
  | none => none
  | some u => if u = "" then none else some (String.mk (u.toList.take 100) ++ "...")

/-- The caller-supplied part of a history item (id, timestamp and
thumbnail are generated inside `addToHistory`). -/
structure AddInput where
  schema : String
  imageUrl : Option String
deriving DecidableEq, Repr

/-- `addToHistory`. The fresh id and the current time are inputs of the
model; `persistOk` is the outcome of the persistence write that the store
middleware performs inside `set` (the storage substrate is external: per
the specification it applies the in-memory update and then signals a
quota failure, which the source catches and converts into
`storageWarning := true`). The new item is stored with `imageUrl` forced
to null, prepended, and the history is truncated to the five most recent
entries. -/
def addToHistory (st : WorkflowState) (item : AddInput) (freshId : String) (now : Nat)
    (persistOk : Bool) : WorkflowState :=
  let newItem : HistoryItem :=
    { id := freshId, timestamp := now, schema := item.schema
      imageUrl := none, thumbnail := createThumbnail item.imageUrl }
  let newHistory := newItem :: st.history.take (MAX_HISTORY_ITEMS - 1)
  if persistOk then
    { st with history := newHistory, storageWarning := false }
  else
    { st with history := newHistory, storageWarning := true }

/-- `loadFromHistory`: look up the first item with the given id; when
found, restore its schema and null the generated image; otherwise leave
the state unchanged. -/
def loadFromHistory (st : WorkflowState) (id : String) : WorkflowState :=
  match st.history.find? (fun h => h.id == id) with
  | some item => { st with generatedSchema := item.schema, generatedImage := none }
  | none => st

/-- `deleteFromHistory`: remove the entries with the given id and clear
the storage warning. -/
def deleteFromHistory (st : WorkflowState) (id : String) : WorkflowState :=
  { st with history := st.history.filter (fun h => h.id ≠ id), storageWarning := false }

/-- `clearHistory`: drop all history and clear the storage warning. -/
def clearHistory (st : WorkflowState) : WorkflowState :=
  { st with history := [], storageWarning := false }

/-- `resetProject`: clear the working document fields and reset the step. -/
def resetProject (st : WorkflowState) : WorkflowState :=
  { st with paperContent := "", generatedSchema := "", generatedImage := none
            referenceImages := [], currentStep := 1 }

/-- The subset of the state written to durable storage. -/
structure PersistedState where
  logicConfig : ModelConfig
  visionConfig : ModelConfig
  language : Language
  paperContent : String
  generatedSchema : String
  history : List HistoryItem
deriving DecidableEq, Repr

/-- The `partialize` function of the persistence configuration: the
persisted subset, with every history item's image url forced to null at
write time. -/
def persistedSubset (st : WorkflowState) : PersistedState :=
  { logicConfig := st.logicConfig
    visionConfig := st.visionConfig
    language := st.language
    paperContent := st.paperContent
    generatedSchema := st.generatedSchema
    history := st.history.map (fun h => { h with imageUrl := none }) }

/-- One call to `addToHistory` with its generated id, timestamp and
persistence outcome. -/
structure AddCall where
  item : AddInput
  freshId : String
  now : Nat
  persistOk : Bool
deriving DecidableEq, Repr

/-- The history item a call stores. -/
def mkHistoryItem (c : AddCall) : HistoryItem :=
  { id := c.freshId, timestamp := c.now, schema := c.item.schema
    imageUrl := none, thumbnail := createThumbnail c.item.imageUrl }

/-- Apply a sequence of `addToHistory` calls in order. -/
def applyAdds (st : WorkflowState) : List AddCall → WorkflowState
  | [] => st
  | c :: rest => applyAdds (addToHistory st c.item c.freshId c.now c.persistOk) rest

/-! ## Template decompositions and concrete inputs used by the theorems -/

/-- The architect template text before its placeholder. -/
def archPre : String := "You are an expert academic diagram architect. Analyze the following paper content and generate a detailed Visual Schema that describes a publication-quality academic diagram.

The Visual Schema should include:
1. Layout structure (zones, panels, sections)
2. Visual elements (shapes, icons, connections)
3. Color scheme
4. Text labels and annotations
5. Flow/direction indicators

Paper Content:
"

/-- The architect template text after its placeholder. -/
def archPost : String := "

Generate a comprehensive Visual Schema in the following format:

---BEGIN PROMPT---
[DIAGRAM TITLE]
A clear, descriptive title for the diagram

[OVERALL LAYOUT]
Describe the overall structure and organization

[ZONES/SECTIONS]
Detail each zone or section with:
- Position and size
- Background color/style
- Content description

[VISUAL ELEMENTS]
List all visual elements with:
- Type (box, arrow, icon, etc.)
- Position
- Style (color, border, shadow)
- Content/label

[CONNECTIONS]
Describe connections between elements:
- From/To
- Arrow style
- Labels

[COLOR PALETTE]
List the main colors used

[KEY TEXT LABELS]
Important text annotations
---END PROMPT---"

/-- The plain renderer template text before its placeholder. -/
def rndPre : String := "You are an expert academic diagram renderer. Based on the following Visual Schema, generate a high-quality academic diagram suitable for CVPR/NeurIPS publications.

"

/-- The plain renderer template text after its placeholder. -/
def rndPost : String := "

Create a clean, professional academic diagram with:
- Clear visual hierarchy
- Professional color scheme
- Crisp lines and shapes
- Readable text labels
- Publication-quality aesthetics"

/-- The references-variant template text before its placeholder. -/
def rwrPre : String := "You are an expert academic diagram renderer. Based on the following Visual Schema and reference images, generate a high-quality academic diagram that matches the style of the references.

"

/-- The references-variant template text after its placeholder. -/
def rwrPost : String := "

The reference images show the desired aesthetic style. Generate a diagram that:
- Follows the layout and structure from the Visual Schema
- Matches the visual style of the reference images
- Has publication-quality aesthetics suitable for CVPR/NeurIPS"

/-- The fixed phrase unique to the references-variant template. -/
def refPhrase : String := "The reference images show the desired aesthetic style."

/-- The references-variant template text after the unique phrase. -/
def rwrPostTail : String := " Generate a diagram that:
- Follows the layout and structure from the Visual Schema
- Matches the visual style of the reference images
- Has publication-quality aesthetics suitable for CVPR/NeurIPS"

/-- The fixed phrase unique to the plain renderer template. -/
def plainPhrase : String := "Create a clean, professional academic diagram with:"

/-- The plain renderer template text after the unique phrase. -/
def rndPostTail : String := "
- Clear visual hierarchy
- Professional color scheme
- Crisp lines and shapes
- Readable text labels
- Publication-quality aesthetics"

/-- A data-url-style image literal with media subtype `mt` and base64
payload `payload`. -/
def dataUrlChars (mt payload : List Char) : List Char :=
  "data:image/".toList ++ mt ++ ";base64,".toList ++ payload

/-- A response text with a data-url literal embedded mid-sentence. -/
def exEmbedText : String := "See data:image/png;base64,AAAA here."

/-- A concrete history item used as a witness input. -/
def exItem : HistoryItem :=
  { id := "h1", timestamp := 7, schema := "stored schema", imageUrl := none, thumbnail := none }

/-- A concrete state whose history holds `exItem` and whose working image
is non-null. -/
def exState : WorkflowState :=
  { initialState with history := [exItem], generatedImage := some "live-image" }

/-- Six concrete `addToHistory` calls used as a witness input. -/
def exCalls : List AddCall :=
  [ { item := { schema := "s1", imageUrl := none }, freshId := "i1", now := 1, persistOk := true }
  , { item := { schema := "s2", imageUrl := some "u2" }, freshId := "i2", now := 2, persistOk := true }
  , { item := { schema := "s3", imageUrl := none }, freshId := "i3", now := 3, persistOk := false }
  , { item := { schema := "s4", imageUrl := some "u4" }, freshId := "i4", now := 4, persistOk := true }
  , { item := { schema := "s5", imageUrl := none }, freshId := "i5", now := 5, persistOk := true }
  , { item := { schema := "s6", imageUrl := some "u6" }, freshId := "i6", now := 6, persistOk := true } ]

/-! ## Helper lemmas -/

set_option maxRecDepth 100000

/-- Stripping a pattern from the front of the pattern followed by a
remainder succeeds with that remainder. -/
theorem dropPre_self_append : ∀ (p r : List Char), dropPre p (p ++ r) = some r := by
  intro p
  induction p with
  | nil => intro r; rfl
  | cons c cs ih => intro r; simp [dropPre, ih]

/-- Taking with bound `k` through an append whose right part is already
truncated at `j ≥ k` equals taking through the untruncated append. -/
theorem take_append_take (b : List HistoryItem) :
    ∀ (a : List HistoryItem) (k j : ℕ), k ≤ j →
      (a ++ List.take j b).take k = (a ++ b).take k := by
  intro a
  induction a with
  | nil =>
    intro k j hkj
    simp [List.take_take, Nat.min_eq_left hkj]
  | cons x xs ih =>
    intro k j hkj
    cases k with
    | zero => simp
    | succ k' =>
      simp only [List.cons_append, List.take_succ_cons]
      exact congrArg (x :: ·) (ih k' j (Nat.le_of_succ_le hkj))

/-- The history written by one `addToHistory` call, for either persistence
outcome. -/
theorem addToHistory_history (st : WorkflowState) (c : AddCall) :
    (addToHistory st c.item c.freshId c.now c.persistOk).history =
      mkHistoryItem c :: st.history.take 4 := by
  cases h : c.persistOk <;> simp [addToHistory, mkHistoryItem, MAX_HISTORY_ITEMS]

/-- After a non-empty sequence of calls, the history is the five most
recent entries of the pushed items followed by the initial history. -/
theorem applyAdds_history :
    ∀ (calls : List AddCall) (st : WorkflowState), calls ≠ [] →
      (applyAdds st calls).history =
        ((calls.reverse.map mkHistoryItem) ++ st.history).take 5 := by
  intro calls
  induction calls with
  | nil => intro st h; exact absurd rfl h
  | cons c rest ih =>
    intro st _
    show (applyAdds (addToHistory st c.item c.freshId c.now c.persistOk) rest).history = _
    cases hr : rest with
    | nil =>
      show (addToHistory st c.item c.freshId c.now c.persistOk).history = _
      rw [addToHistory_history]
      simp [List.take_succ_cons]
    | cons r rs =>
      rw [← hr, ih (addToHistory st c.item c.freshId c.now c.persistOk) (by simp [hr])]
      rw [addToHistory_history]
      have h1 : mkHistoryItem c :: st.history.take 4 =
          (mkHistoryItem c :: st.history).take 5 := by
        simp [List.take_succ_cons]
      rw [h1, take_append_take _ _ 5 5 (Nat.le_refl 5)]
      simp [List.append_assoc]

/-- A membership-plus-uniqueness hypothesis determines the result of the
first-match lookup. -/
theorem find?_of_mem_uniq :
    ∀ (l : List HistoryItem) (id : String) (item : HistoryItem),
      item ∈ l → item.id = id → (∀ it ∈ l, it.id = id → it = item) →
      l.find? (fun h => h.id == id) = some item := by
  intro l
  induction l with
  | nil => intro id item hmem; exact absurd hmem (List.not_mem_nil item)
  | cons a rest ih =>
    intro id item hmem hid huniq
    by_cases ha : a.id = id
    · have : a = item := huniq a (List.mem_cons_self a rest) ha
      subst this
      simp [List.find?_cons, ha]
    · have hane : (a.id == id) = false := by
        simp [ha]
      rw [List.find?_cons, hane]
      have hmem' : item ∈ rest := by
        rcases List.mem_cons.mp hmem with h | h
        · exact absurd (h ▸ hid) ha
        · exact h
      exact ih id item hmem' hid (fun it hit => huniq it (List.mem_cons_of_mem a hit))

/-! ## Claim theorems -/

/-- C1: for every prompt input and image list, both `generateSchema` and
`renderImage` assemble a content-part sequence that, for K ≥ 1 images, is
the K image parts in input order followed by exactly one text part holding
the full prompt, of length K + 1; and for zero images (absent or empty
list) is a single text part. -/
theorem content_parts_shape :
    ∀ (p v : String) (imgs : List String),
      generateSchemaContent p (some imgs) =
        (if imgs.isEmpty then [ContentPart.textPart (generateSchemaPrompt p)]
         else imgs.map ContentPart.imagePart ++ [ContentPart.textPart (generateSchemaPrompt p)])
      ∧ (generateSchemaContent p (some imgs)).length =
          (if imgs.isEmpty then 1 else imgs.length + 1)
      ∧ generateSchemaContent p none = [ContentPart.textPart (generateSchemaPrompt p)]
      ∧ renderImageContent v (some imgs) =
        (if imgs.isEmpty then [ContentPart.textPart (renderImagePrompt v (some imgs))]
         else imgs.map ContentPart.imagePart ++
           [ContentPart.textPart (renderImagePrompt v (some imgs))])
      ∧ (renderImageContent v (some imgs)).length =
          (if imgs.isEmpty then 1 else imgs.length + 1)
      ∧ renderImageContent v none = [ContentPart.textPart (renderImagePrompt v none)] := by
  intro p v imgs
  cases imgs <;>
    simp [generateSchemaContent, renderImageContent, buildContent]

/-- C5: a persistence failure during `addToHistory` leaves the in-memory
mutation (new item prepended, bound applied) in effect and raises the
storage warning; a successful call clears the warning; `deleteFromHistory`
and `clearHistory` always reset the warning to false. The model is total,
so no call propagates an exception. -/
theorem storage_warning_behavior :
    ∀ (st : WorkflowState) (item : AddInput) (id : String) (now : ℕ)
      (st2 : WorkflowState) (hid : String),
      (addToHistory st item id now false).history =
        { id := id, timestamp := now, schema := item.schema, imageUrl := none
          thumbnail := createThumbnail item.imageUrl } :: st.history.take 4
      ∧ (addToHistory st item id now false).storageWarning = true
      ∧ (addToHistory st item id now true).history =
        { id := id, timestamp := now, schema := item.schema, imageUrl := none
          thumbnail := createThumbnail item.imageUrl } :: st.history.take 4
      ∧ (addToHistory st item id now true).storageWarning = false
      ∧ (deleteFromHistory st2 hid).storageWarning = false
      ∧ (clearHistory st2).storageWarning = false := by
  intro st item id now st2 hid
  refine ⟨rfl, rfl, rfl, rfl, rfl, rfl⟩

/-- C8: when the history contains the item with the given id, and no other
entry carries that id, `loadFromHistory` restores that item's schema into
the working state and nulls the generated image, whatever the image was
before. -/
theorem loadFromHistory_restores_schema (st : WorkflowState) (id : String)
    (item : HistoryItem) (hmem : item ∈ st.history) (hid : item.id = id)
    (huniq : ∀ it ∈ st.history, it.id = id → it = item) :
    loadFromHistory st id =
      { st with generatedSchema := item.schema, generatedImage := none }
    ∧ (loadFromHistory st id).generatedSchema = item.schema
    ∧ (loadFromHistory st id).generatedImage = none := by
  have hfind := find?_of_mem_uniq st.history id item hmem hid huniq
  refine ⟨?_, ?_, ?_⟩ <;> simp [loadFromHistory, hfind]

/-- C8 witness: a concrete state with a non-null working image and a
stored item; loading restores the stored schema and nulls the image. -/
theorem loadFromHistory_restores_schema_witness :
    exItem ∈ exState.history ∧ exItem.id = "h1"
    ∧ (loadFromHistory exState "h1").generatedSchema = "stored schema"
    ∧ (loadFromHistory exState "h1").generatedImage = none := by
  refine ⟨by decide, by decide, ?_, ?_⟩
  · exact (loadFromHistory_restores_schema exState "h1" exItem (by decide) (by decide)
      (by decide)).2.1
  · exact (loadFromHistory_restores_schema exState "h1" exItem (by decide) (by decide)
      (by decide)).2.2

/-- C9: `resetProject` clears the working document fields and resets the
step to 1 while leaving the configurations, the language and the history
untouched. -/
theorem resetProject_frame :
    ∀ st : WorkflowState,
      resetProject st =
        { st with paperContent := "", generatedSchema := "", generatedImage := none
                  referenceImages := [], currentStep := 1 }
      ∧ (resetProject st).logicConfig = st.logicConfig
      ∧ (resetProject st).visionConfig = st.visionConfig
      ∧ (resetProject st).history = st.history
      ∧ (resetProject st).language = st.language := by
  intro st
  refine ⟨rfl, rfl, rfl, rfl, rfl⟩

/-- C10: `loadFromHistory` modifies at most the generated schema and the
generated image; when no entry has the given id it is the identity, and in
every case the history, step, paper content, reference images, both
configurations, language and storage warning are unchanged. -/
theorem loadFromHistory_frame :
    ∀ (st : WorkflowState) (id : String),
      (loadFromHistory st id).history = st.history
      ∧ (loadFromHistory st id).currentStep = st.currentStep
      ∧ (loadFromHistory st id).paperContent = st.paperContent
      ∧ (loadFromHistory st id).referenceImages = st.referenceImages
      ∧ (loadFromHistory st id).logicConfig = st.logicConfig
      ∧ (loadFromHistory st id).visionConfig = st.visionConfig
      ∧ (loadFromHistory st id).language = st.language
      ∧ (loadFromHistory st id).storageWarning = st.storageWarning
      ∧ (st.history.find? (fun h => h.id == id) = none → loadFromHistory st id = st) := by
  intro st id
  cases h : st.history.find? (fun h => h.id == id) <;>
    simp [loadFromHistory, h]

/-- C10 witness: on the initial state and an absent id, the call is the
identity. -/
theorem loadFromHistory_frame_witness :
    loadFromHistory initialState "absent" = initialState := by
  exact (loadFromHistory_frame initialState "absent").2.2.2.2.2.2.2.2 (by decide)

/-- C4: after more than five `addToHistory` calls from any initial state,
the history is exactly the items of the five most recent calls, newest
first, its length is five, every stored item's image url is null, and the
image url of every item in the persisted subset is null as well. -/
theorem history_bounded_after_adds (st : WorkflowState) (calls : List AddCall)
    (h : 5 < calls.length) :
    (applyAdds st calls).history = (calls.reverse.take 5).map mkHistoryItem
    ∧ (applyAdds st calls).history.length = 5
    ∧ (∀ it ∈ (applyAdds st calls).history, it.imageUrl = none)
    ∧ (∀ it ∈ (persistedSubset (applyAdds st calls)).history, it.imageUrl = none) := by
  have hne : calls ≠ [] := by
    intro h0; rw [h0] at h; exact absurd h (by simp)
  have hlen : 5 ≤ (calls.reverse.map mkHistoryItem).length := by
    simp; omega
  have hmain : (applyAdds st calls).history = (calls.reverse.take 5).map mkHistoryItem := by
    rw [applyAdds_history calls st hne, List.take_append_of_le_length hlen,
      ← List.map_take]
  refine ⟨hmain, ?_, ?_, ?_⟩
  · rw [hmain]; simp; omega
  · intro it hit
    rw [hmain] at hit
    obtain ⟨c, _, hc⟩ := List.mem_map.mp hit
    rw [← hc]; rfl
  · intro it hit
    obtain ⟨c, _, hc⟩ := List.mem_map.mp hit
    rw [← hc]

/-- C4 witness: six concrete calls on the initial state leave exactly five
history entries. -/
theorem history_bounded_after_adds_witness :
    5 < exCalls.length ∧ (applyAdds initialState exCalls).history.length = 5 := by
  exact ⟨by decide, (history_bounded_after_adds initialState exCalls (by decide)).2.1⟩

/-- C2: when the text holds no embedded data-url literal, the result is
the synthesized PNG data url over the trimmed text exactly when the text
is longer than 1000 characters and entirely base64 alphabet or whitespace;
otherwise the result carries a null image url and the exact text, and the
empty text yields a null image url with the empty string, not an absent
text. -/
theorem raw_base64_cascade (t : String) (hfind : findDataUrl t = none) :
    ((extractImage t =
        { imageUrl := some ("data:image/png;base64," ++ jsTrim t), text := none })
      ↔ (1000 < t.length ∧ rawBase64Test t = true))
    ∧ (¬ (1000 < t.length ∧ rawBase64Test t = true) →
        extractImage t = { imageUrl := none, text := some t })
    ∧ extractImage "" = { imageUrl := none, text := some "" } := by
  have hempty : extractImage "" = { imageUrl := none, text := some "" } := by
    simp [extractImage]
  by_cases ht : t = ""
  · subst ht
    refine ⟨?_, fun _ => hempty, hempty⟩
    constructor
    · intro h
      rw [hempty] at h
      simp at h
    · intro hc
      exact absurd hc.1 (by decide)
  · have hext : extractImage t =
        (if 1000 < t.length ∧ rawBase64Test t = true then
          { imageUrl := some ("data:image/png;base64," ++ jsTrim t), text := none }
         else { imageUrl := none, text := some t }) := by
      simp [extractImage, ht, hfind]
    by_cases hc : 1000 < t.length ∧ rawBase64Test t = true
    · rw [hext, if_pos hc]
      exact ⟨⟨fun _ => hc, fun _ => rfl⟩, fun h => absurd hc h, hempty⟩
    · rw [hext, if_neg hc]
      refine ⟨⟨fun h => ?_, fun h => absurd h hc⟩, fun _ => rfl, hempty⟩
      exfalso
      simp at h

/-- C2 witness: a short prose text with no embedded data url falls to the
final branch and is returned verbatim. -/
theorem raw_base64_cascade_witness :
    findDataUrl "hello world" = none
    ∧ extractImage "hello world" = { imageUrl := none, text := some "hello world" } := by
  refine ⟨by decide, ?_⟩
  exact (raw_base64_cascade "hello world" (by decide)).2.1 (by decide)

/-- A run of characters satisfying the predicate followed by a failing
character splits `takeWhile` and `dropWhile` exactly there. -/
theorem takeWhile_append_stop (p : Char → Bool) :
    ∀ (xs : List Char) (y : Char) (ys : List Char),
      (∀ x ∈ xs, p x = true) → p y = false →
      (xs ++ y :: ys).takeWhile p = xs ∧ (xs ++ y :: ys).dropWhile p = y :: ys := by
  intro xs
  induction xs with
  | nil =>
    intro y ys _ hy
    constructor
    · simp [List.takeWhile_cons, hy]
    · simp [List.dropWhile_cons, hy]
  | cons x xs ih =>
    intro y ys hall hy
    have hx : p x = true := hall x (by simp)
    have hrest := ih y ys (fun a ha => hall a (by simp [ha])) hy
    constructor
    · simp [List.takeWhile_cons, hx, hrest.1]
    · simp [List.dropWhile_cons, hx, hrest.2]

/-- `takeWhile` passes through a fully satisfying left part. -/
theorem takeWhile_append_all (p : Char → Bool) :
    ∀ (xs ys : List Char), (∀ x ∈ xs, p x = true) →
      (xs ++ ys).takeWhile p = xs ++ ys.takeWhile p := by
  intro xs
  induction xs with
  | nil => intro ys _; rfl
  | cons x xs ih =>
    intro ys hall
    have hx : p x = true := hall x (by simp)
    simp [List.takeWhile_cons, hx, ih ys (fun a ha => hall a (by simp [ha]))]

/-- The head-anchored matcher succeeds on any well-formed data-url literal
followed by arbitrary text. -/
theorem matchDataUrlAt_lit (mt payload post : List Char)
    (hmt : mt ≠ []) (hmtn : ∀ c ∈ mt, c ≠ ';')
    (hpay : payload ≠ []) (hpayb : ∀ c ∈ payload, isBase64Char c = true) :
    ∃ m, matchDataUrlAt (dataUrlChars mt payload ++ post) = some m := by
  have hsemi : ((";base64,".toList : List Char)) = ';' :: "base64,".toList := by decide
  have hlist : dataUrlChars mt payload ++ post =
      "data:image/".toList ++ (mt ++ (';' :: ("base64,".toList ++ (payload ++ post)))) := by
    simp [dataUrlChars, hsemi]
  have hmtb : ∀ x ∈ mt, (x != ';') = true := by
    intro x hx
    simpa using hmtn x hx
  have hstop := takeWhile_append_stop (fun c => c != ';') mt ';'
    ("base64,".toList ++ (payload ++ post)) hmtb (by simp)
  have hmtE : mt.isEmpty = false := by
    cases mt with
    | nil => exact absurd rfl hmt
    | cons _ _ => rfl
  have hdrop2 : dropPre (";base64,".toList) (';' :: ("base64,".toList ++ (payload ++ post)))
      = some (payload ++ post) := by
    rw [hsemi]
    exact dropPre_self_append (';' :: "base64,".toList) (payload ++ post)
  have htw : (payload ++ post).takeWhile isBase64Char
      = payload ++ post.takeWhile isBase64Char :=
    takeWhile_append_all isBase64Char payload post hpayb
  have hpayE : (payload ++ post.takeWhile isBase64Char).isEmpty = false := by
    cases payload with
    | nil => exact absurd rfl hpay
    | cons _ _ => rfl
  refine ⟨"data:image/".toList ++ mt ++ ";base64,".toList ++
    (payload ++ post.takeWhile isBase64Char), ?_⟩
  rw [hlist]
  simp only [matchDataUrlAt, dropPre_self_append, hstop.1, hstop.2, hmtE, hdrop2, htw,
    hpayE, Bool.false_eq_true, if_false]

/-- A successful head match anywhere in the list makes the left-to-right
scan succeed. -/
theorem findDataUrlAux_of_matchAt :
    ∀ (pre rest : List Char), rest ≠ [] → (matchDataUrlAt rest).isSome = true →
      (findDataUrlAux (pre ++ rest)).isSome = true := by
  intro pre
  induction pre with
  | nil =>
    intro rest hne hm
    cases rest with
    | nil => exact absurd rfl hne
    | cons c cs =>
      rw [List.nil_append]
      unfold findDataUrlAux
      cases h : matchDataUrlAt (c :: cs) with
      | some m => simp
      | none =>
        rw [h] at hm
        simp at hm
  | cons c cs ih =>
    intro rest hne hm
    rw [List.cons_append]
    unfold findDataUrlAux
    cases h : matchDataUrlAt (c :: (cs ++ rest)) with
    | some m => simp
    | none =>
      simp only []
      exact ih rest hne hm

/-- C3: for every text containing an embedded data-url-style image literal
(scheme, non-empty semicolon-free media subtype, base64 marker, non-empty
base64 payload), the leftmost regular-expression match is returned as the
image url with the text absent, ahead of the raw-base64 whole-text check. -/
theorem embedded_data_url_first (t : String) (pre mt payload post : List Char)
    (hmt : mt ≠ []) (hmtn : ∀ c ∈ mt, c ≠ ';')
    (hpay : payload ≠ []) (hpayb : ∀ c ∈ payload, isBase64Char c = true)
    (ht : t.toList = pre ++ (dataUrlChars mt payload ++ post)) :
    ∃ m, findDataUrl t = some m
      ∧ extractImage t = { imageUrl := some m, text := none } := by
  obtain ⟨m0, hm0⟩ := matchDataUrlAt_lit mt payload post hmt hmtn hpay hpayb
  have hne : dataUrlChars mt payload ++ post ≠ [] := by
    simp [dataUrlChars]
  have haux : (findDataUrlAux t.toList).isSome = true := by
    rw [ht]
    exact findDataUrlAux_of_matchAt pre _ hne (by rw [hm0]; rfl)
  obtain ⟨mc, hmc⟩ := Option.isSome_iff_exists.mp haux
  have hfind : findDataUrl t = some (String.mk mc) := by
    unfold findDataUrl
    rw [hmc]
    rfl
  have htne : t ≠ "" := by
    intro h0
    rw [h0] at haux
    exact absurd haux (by decide)
  refine ⟨String.mk mc, hfind, ?_⟩
  simp [extractImage, htne, hfind]

/-- C3 witness: a text with `data:image/png;base64,AAAA` embedded
mid-sentence yields exactly that literal as the image url, text absent. -/
theorem embedded_data_url_first_witness :
    extractImage exEmbedText =
      { imageUrl := some "data:image/png;base64,AAAA", text := none }
    ∧ ∃ m, findDataUrl exEmbedText = some m
        ∧ extractImage exEmbedText = { imageUrl := some m, text := none } := by
  refine ⟨by decide, ?_⟩
  exact embedded_data_url_first exEmbedText ("See ".toList) ("png".toList)
    ("AAAA".toList) (" here.".toList) (by decide) (by decide) (by decide) (by decide)
    (by decide)

/-- A replacement text without a dollar sign is substituted verbatim. -/
theorem getSubst_no_dollar (matched before after : List Char) :
    ∀ repl : List Char, (∀ c ∈ repl, c ≠ '$') →
      getSubst repl matched before after = repl := by
  intro repl
  induction repl with
  | nil => intro _; rfl
  | cons c rest ih =>
    intro h
    have hc : c ≠ '$' := h c (by simp)
    unfold getSubst
    rw [if_neg hc]
    exact congrArg (c :: ·) (ih (fun a ha => h a (by simp [ha])))

/-- Building a string from the concatenated character data of three
strings is their concatenation. -/
theorem string_mk_append3 (a b c : String) :
    String.mk (a.toList ++ b.toList ++ c.toList) = a ++ b ++ c := by
  cases a; cases b; cases c; rfl

/-- The architect template splits at its placeholder. -/
theorem hsplitArch :
    splitAtSub? ("{paper_content}".toList) (ARCHITECT_PROMPT_TEMPLATE.toList)
      = some (archPre.toList, archPost.toList) := by decide

/-- The plain renderer template splits at its placeholder. -/
theorem hsplitRnd :
    splitAtSub? ("{visual_schema_content}".toList) (RENDERER_PROMPT_TEMPLATE.toList)
      = some (rndPre.toList, rndPost.toList) := by decide

/-- The references-variant template splits at its placeholder. -/
theorem hsplitRwr :
    splitAtSub? ("{visual_schema_content}".toList) (RENDERER_WITH_REFERENCES_TEMPLATE.toList)
      = some (rwrPre.toList, rwrPost.toList) := by decide

/-- C6 counterexample: substitution is not an exact splice for every
placeholder value. For the value consisting of a dollar sign and an
ampersand, JavaScript replacement-pattern expansion reinserts the matched
placeholder, so the output differs from the template with only the
placeholder span replaced by the value. -/
theorem substitution_dollar_cex :
    jsReplace RENDERER_PROMPT_TEMPLATE "{visual_schema_content}" "$&" ≠
      specSplice RENDERER_PROMPT_TEMPLATE "{visual_schema_content}" "$&" := by decide

/-- C6 amended: for each of the three fixed templates and every
placeholder value containing no dollar sign, substitution replaces only
the first placeholder occurrence and the output is the template text
before the placeholder, the value, and the template text after it, byte
for byte (values containing a dollar sign undergo JavaScript
replacement-pattern expansion instead). -/
theorem substitution_no_dollar (v : String) (hv : ∀ c ∈ v.toList, c ≠ '$') :
    jsReplace ARCHITECT_PROMPT_TEMPLATE "{paper_content}" v = archPre ++ v ++ archPost
    ∧ jsReplace RENDERER_PROMPT_TEMPLATE "{visual_schema_content}" v = rndPre ++ v ++ rndPost
    ∧ jsReplace RENDERER_WITH_REFERENCES_TEMPLATE "{visual_schema_content}" v
        = rwrPre ++ v ++ rwrPost
    ∧ archPre ++ "{paper_content}" ++ archPost = ARCHITECT_PROMPT_TEMPLATE
    ∧ rndPre ++ "{visual_schema_content}" ++ rndPost = RENDERER_PROMPT_TEMPLATE
    ∧ rwrPre ++ "{visual_schema_content}" ++ rwrPost = RENDERER_WITH_REFERENCES_TEMPLATE := by
  refine ⟨?_, ?_, ?_, by decide, by decide, by decide⟩
  · simp only [jsReplace, hsplitArch]
    rw [getSubst_no_dollar _ _ _ v.toList hv]
    exact string_mk_append3 archPre v archPost
  · simp only [jsReplace, hsplitRnd]
    rw [getSubst_no_dollar _ _ _ v.toList hv]
    exact string_mk_append3 rndPre v rndPost
  · simp only [jsReplace, hsplitRwr]
    rw [getSubst_no_dollar _ _ _ v.toList hv]
    exact string_mk_append3 rwrPre v rwrPost

/-- C6 witness: a dollar-free value is spliced verbatim into the
architect template. -/
theorem substitution_no_dollar_witness :
    (∀ c ∈ ("my schema" : String).toList, c ≠ '$')
    ∧ jsReplace ARCHITECT_PROMPT_TEMPLATE "{paper_content}" "my schema"
        = archPre ++ "my schema" ++ archPost := by
  exact ⟨by decide, (substitution_no_dollar "my schema" (by decide)).1⟩

/-- C7: template selection in `renderImage` is a pure function of
reference-image presence: at least one reference image always selects the
references-variant template, zero (absent or empty) always selects the
plain template; the prompt built from each template contains that
template's unique fixed phrase for every visual schema. -/
theorem template_selection :
    ∀ (v : String) (imgs : List String),
      renderImagePrompt v (some imgs) =
        (if imgs.isEmpty then jsReplace RENDERER_PROMPT_TEMPLATE "{visual_schema_content}" v
         else jsReplace RENDERER_WITH_REFERENCES_TEMPLATE "{visual_schema_content}" v)
      ∧ renderImagePrompt v none
          = jsReplace RENDERER_PROMPT_TEMPLATE "{visual_schema_content}" v
      ∧ (∃ a b : List Char,
          (jsReplace RENDERER_WITH_REFERENCES_TEMPLATE "{visual_schema_content}" v).toList
            = a ++ refPhrase.toList ++ b)
      ∧ (∃ a b : List Char,
          (jsReplace RENDERER_PROMPT_TEMPLATE "{visual_schema_content}" v).toList
            = a ++ plainPhrase.toList ++ b) := by
  intro v imgs
  refine ⟨?_, rfl, ?_, ?_⟩
  · cases imgs <;> simp [renderImagePrompt]
  · have hpost : rwrPost.toList = "\n\n".toList ++ refPhrase.toList ++ rwrPostTail.toList := by
      decide
    refine ⟨rwrPre.toList ++ getSubst v.toList ("{visual_schema_content}".toList)
      rwrPre.toList rwrPost.toList ++ "\n\n".toList, rwrPostTail.toList, ?_⟩
    simp only [jsReplace, hsplitRwr]
    show rwrPre.toList ++ _ ++ rwrPost.toList = _
    rw [hpost]
    simp [List.append_assoc]
  · have hpost : rndPost.toList = "\n\n".toList ++ plainPhrase.toList ++ rndPostTail.toList := by
      decide
    refine ⟨rndPre.toList ++ getSubst v.toList ("{visual_schema_content}".toList)
      rndPre.toList rndPost.toList ++ "\n\n".toList, rndPostTail.toList, ?_⟩
    simp only [jsReplace, hsplitRnd]
    show rndPre.toList ++ _ ++ rndPost.toList = _
    rw [hpost]
    simp [List.append_assoc]

end AIA
